import Mathlib

/-!
# Verification of `steam_watch.py`

A shallow embedding of the Steam catalog watcher (`src/steam_watch.py`,
the current revision of the script) in Lean 4, with theorems settling the
specification claims about it.

Modelling conventions:
* Python strings are Lean `String`s; Python `or`-defaulting on falsy
  strings is modelled by testing for the empty string.
* The wall clock (`time.time()`, an arbitrary source of seconds) is
  injected explicitly: per-iteration integer timestamps come from a
  `clock : Nat → Nat` environment function, matching `int(time.time())`.
* `datetime.strftime` RFC-2822 formatting is abstracted to an injective
  rendering of the integer timestamp (no claim inspects the calendar
  text of a `pubDate`).
* Python `str.strip()` is modelled by dropping whitespace characters on
  both ends of the character list.
* `html.unescape` is modelled on the basic named entities `&amp;`,
  `&lt;`, `&gt;`, `&quot;`; the full HTML5 entity table is irrelevant to
  every claim (all claims quantify over the post-unescape text).
* The persisted `state.json.gz` dict is the structure `State`; its JSON
  layout is the explicit `Json` tree produced by `stateToJson`.
-/

/-- The per-item facts stored in `state["known"][str(appid)]`:
`{"has_ja": bool, "release": str}`. -/
structure ItemFacts where
  has_ja : Bool
  release : String
deriving DecidableEq, Repr

/-- One RSS buffer entry as built in `main` (a Python dict with keys
`title`, `link`, `guid`, `pubDate`, `description`, `image`); `image` is
optional because older revisions of the script omitted it. -/
structure FeedItem where
  title : String
  link : String
  guid : String
  pubDate : String
  description : String
  image : Option String
deriving DecidableEq, Repr

/-- The persisted state dict.  `applist`, `applist_ts` and `cursor` may be
absent (an empty initial state); the three container fields model the
`setdefault` calls in `main`, which guarantee their presence. -/
structure State where
  applist : Option (List Nat)
  applist_ts : Option Nat
  cursor : Option Nat
  rss_lang : List FeedItem
  rss_release : List FeedItem
  known : List (String × ItemFacts)
deriving DecidableEq, Repr

/-- The empty state: `load_state` returns `{}` when no snapshot file
exists, and `main`'s `setdefault` calls fill in the containers. -/
def State.empty : State :=
  { applist := none, applist_ts := none, cursor := none,
    rss_lang := [], rss_release := [], known := [] }

/-- Python dict lookup `d.get(k)` on the `known` map. -/
def dictGet (k : String) : List (String × ItemFacts) → Option ItemFacts
  | [] => none
  | (k', v) :: rest => if k' = k then some v else dictGet k rest

/-- Python dict assignment `d[k] = v` on the `known` map: overwrite in
place when the key exists, append otherwise. -/
def dictInsert (k : String) (v : ItemFacts) :
    List (String × ItemFacts) → List (String × ItemFacts)
  | [] => [(k, v)]
  | (k', v') :: rest =>
      if k' = k then (k, v) :: rest else (k', v') :: dictInsert k v rest

/-- Python `str.strip()`: remove leading and trailing whitespace. -/
def pyStrip (s : String) : String :=
  String.mk (((s.data.dropWhile Char.isWhitespace).reverse.dropWhile
    Char.isWhitespace).reverse)

/-- `normalize_date` (src/steam_watch.py:90-94): empty input maps to the
canonical no-date value `""`, otherwise the string is stripped and kept
as an opaque token. -/
def normalize_date (date_str : String) : String :=
  if date_str = "" then "" else pyStrip date_str

/-- One replacement pass of the model of `html.unescape`: the basic
named entities.  (The script only feeds the result to a substring test;
no claim depends on the remainder of the HTML5 entity table.)  The
`fuel` argument — always the length of the list, which strictly bounds
the recursion — makes the function structurally recursive, so it
evaluates inside the kernel. -/
def unescapeChars : Nat → List Char → List Char
  | 0, l => l
  | _ + 1, [] => []
  | fuel + 1, '&' :: rest =>
      if "amp;".data.isPrefixOf rest then '&' :: unescapeChars fuel (rest.drop 4)
      else if "lt;".data.isPrefixOf rest then '<' :: unescapeChars fuel (rest.drop 3)
      else if "gt;".data.isPrefixOf rest then '>' :: unescapeChars fuel (rest.drop 3)
      else if "quot;".data.isPrefixOf rest then '"' :: unescapeChars fuel (rest.drop 5)
      else '&' :: unescapeChars fuel rest
  | fuel + 1, c :: rest => c :: unescapeChars fuel rest

/-- Model of `html.unescape` on the basic entities. -/
def html_unescape (s : String) : String :=
  String.mk (unescapeChars s.data.length s.data)

/-- Python `"pat" in text` substring test. -/
def strIn (pat text : String) : Prop := pat.data <:+: text.data

instance (pat text : String) : Decidable (strIn pat text) :=
  inferInstanceAs (Decidable (pat.data <:+: text.data))

/-- ASCII lower-casing, modelling `str.lower()` on the texts at hand
(the probe word `japanese` is pure ASCII). -/
def pyLower (s : String) : String := String.mk (s.data.map Char.toLower)

/-- `has_japanese` (src/steam_watch.py:84-88): false on empty text;
otherwise unescape HTML entities and test for the ASCII keyword
(case-insensitively) or the native-script word. -/
def has_japanese (supported_languages : String) : Bool :=
  if supported_languages = "" then false
  else
    let text := html_unescape supported_languages
    decide (strIn "japanese" (pyLower text)) || decide (strIn "日本語" text)

/-- Per-character expansion equivalent to the chained
`.replace("&","&amp;").replace("<","&lt;").replace(">","&gt;")` of
`escape_xml` (src/steam_watch.py:96-97): escaping `&` first means the
later replacements never touch the introduced entities, so the chain
acts independently per input character. -/
def escChar (c : Char) : List Char :=
  if c = '&' then "&amp;".data
  else if c = '<' then "&lt;".data
  else if c = '>' then "&gt;".data
  else [c]

/-- `escape_xml` (src/steam_watch.py:96-97). `(s or "")` is the identity
on the `String` model. -/
def escape_xml (s : String) : String :=
  String.mk (s.data.foldr (fun c acc => escChar c ++ acc) [])

/-- Model of `now_rfc2822` with the clock injected: the strftime
formatting is abstracted to an injective rendering of the integer
timestamp. -/
def now_rfc2822 (t : Nat) : String := "rfc2822:" ++ toString t

/-- The default capsule image URL pattern used when no image field is
present (src/steam_watch.py:200-205). -/
def defaultImageUrl (appid : Nat) : String :=
  "https://shared.akamai.steamstatic.com/store_item_assets/steam/apps/" ++
    toString appid ++ "/capsule_231x87.jpg"

/-- The body of one `<item>` element of `update_rss`
(src/steam_watch.py:105-123).  `it.get("image")` is falsy for a missing
key and for the empty string, so both select the no-image branches. -/
def renderItem (it : FeedItem) : String :=
  let img := it.image.getD ""
  let desc0 := it.description
  let desc :=
    if img = "" then desc0
    else "<p><img src=\"" ++ escape_xml img ++
      "\" referrerpolicy=\"no-referrer\" loading=\"lazy\" /></p>" ++ desc0
  let media_thumb :=
    if img = "" then ""
    else "\n    <media:thumbnail url=\"" ++ escape_xml img ++ "\" />"
  "  <item>\n    <title>" ++ escape_xml it.title ++
    "</title>\n    <link>" ++ escape_xml it.link ++
    "</link>\n    <guid>" ++ escape_xml it.guid ++
    "</guid>\n    <pubDate>" ++ escape_xml it.pubDate ++
    "</pubDate>" ++ media_thumb ++
    "\n    <description>" ++ escape_xml desc ++
    "</description>\n  </item>"

/-- The truncated item list rendered by `update_rss`:
`for it in rss_items[:max_items]` over `renderItem`. -/
def rssItemsXml (rss_items : List FeedItem) (max_items : Nat) : List String :=
  (rss_items.take max_items).map renderItem

/-- `update_rss` (src/steam_watch.py:99-137), with the render-time clock
injected for `lastBuildDate`; `os.linesep` is `"\n"` on the Linux hosts
the script targets. -/
def update_rss (rss_items : List FeedItem) (title link_self : String)
    (max_items : Nat) (renderTime : Nat) : String :=
  "<?xml version=\"1.0\" encoding=\"UTF-8\"?>\n<rss version=\"2.0\" xmlns:media=\"http://search.yahoo.com/mrss/\">\n<channel>\n  <title>" ++
    escape_xml title ++ "</title>\n  <link>" ++ escape_xml link_self ++
    "</link>\n  <description>Steam watch feed</description>\n  <language>en</language>\n  <lastBuildDate>" ++
    escape_xml (now_rfc2822 renderTime) ++ "</lastBuildDate>\n" ++
    String.intercalate "\n" (rssItemsXml rss_items max_items) ++
    "\n</channel>\n</rss>\n"

/-- `ensure_applist` (src/steam_watch.py:61-72), with the wall clock and
the catalog listing fetched by `http_get` injected.  The staleness test
`(time.time() - ts) / 86400 > max_age_days` on reals is exactly
`now - ts > max_age_days * 86400` on integer seconds, and a falsy
(absent or zero) `applist_ts` forces `age_days = 1e9 > max_age_days`. -/
def ensure_applist (now : Nat) (freshList : List Nat) (max_age_days : Nat)
    (s : State) : State :=
  let ts := s.applist_ts.getD 0
  let stale : Bool := if ts = 0 then true else decide (now - ts > max_age_days * 86400)
  let s1 :=
    if s.applist.isNone || stale then
      { s with applist := some freshList, applist_ts := some now }
    else s
  if s1.cursor.isNone then { s1 with cursor := some 0 } else s1

/-- A flat filesystem for the State Store: an association from path to
the (abstractly decoded) snapshot stored there; `none` on lookup means
no file at that path. -/
def FileSys := List (String × State)

/-- Lookup a path: the first binding for it. -/
def FileSys.lookup : FileSys → String → Option State
  | [], _ => none
  | (k, v) :: rest, p => if k = p then some v else FileSys.lookup rest p

/-- Delete every binding for a path. -/
def FileSys.erase : FileSys → String → FileSys
  | [], _ => []
  | (k, v) :: rest, p =>
      if k = p then FileSys.erase rest p else (k, v) :: FileSys.erase rest p

/-- Create or overwrite the file at a path. -/
def FileSys.write (fs : FileSys) (p : String) (v : State) : FileSys :=
  (p, v) :: fs.erase p

/-- Step 1 of `save_state` (src/steam_watch.py:48-52): serialize and
compress the state into `path + ".tmp"`. -/
def save_state_tmpWrite (path : String) (state : State) (fs : FileSys) : FileSys :=
  fs.write (path ++ ".tmp") state

/-- Step 2 of `save_state`: `os.replace(tmp, path)` — atomically move the
temporary file over the target. -/
def save_state_rename (path : String) (fs : FileSys) : FileSys :=
  match fs.lookup (path ++ ".tmp") with
  | some v => (fs.erase (path ++ ".tmp")).write path v
  | none => fs

/-- `save_state` (src/steam_watch.py:48-52): write the snapshot to the
temporary path, then atomically replace the target. -/
def save_state (path : String) (state : State) (fs : FileSys) : FileSys :=
  save_state_rename path (save_state_tmpWrite path state fs)
/-- The fields of the `appdetails` data dict that `main` reads.  A Python
`data.get(k) or fallback` chain treats both a missing key and an empty
string as absent, so each field is a `String` with `""` meaning
missing-or-empty. -/
structure Details where
  name : String
  supported_languages : String
  release_date_date : String
  capsule_imagev5 : String
  capsule_image : String
  header_image : String
deriving DecidableEq, Repr

/-- A `Details` value with every field absent. -/
def Details.empty : Details :=
  { name := "", supported_languages := "", release_date_date := "",
    capsule_imagev5 := "", capsule_image := "", header_image := "" }

/-- Outcome of `fetch_details(appid)` in one loop iteration
(src/steam_watch.py:183-191):
* `err` — the call raised (caught by the inner `try`, 1 s backoff, `continue`);
* `absent` — it returned `None` or a falsy `data` dict (`if not data: continue`);
* `ok d` — a truthy data dict;
* `fatal` — an unrecoverable error raised inside the loop body, aborting
  the batch loop (the scenario of the guaranteed-save discipline). -/
inductive FetchOutcome where
  | err
  | absent
  | ok (d : Details)
  | fatal
deriving DecidableEq, Repr

/-- The injected environment of one run: the fetch outcome and the
integer wall-clock reading (`int(time.time())`) at each loop iteration,
and the clock reading at render time. -/
structure Env where
  fetches : Nat → FetchOutcome
  clock : Nat → Nat
  renderTime : Nat

/-- The mutable locals of the batch loop: the state dict plus the
`checked` / `found_lang` / `found_rel` counters. -/
structure LoopState where
  st : State
  checked : Nat
  found_lang : Nat
  found_rel : Nat
deriving Repr

/-- The feed entry built for a language-added transition
(src/steam_watch.py:212-221). -/
def mkLangItem (appid : Nat) (name img_url : String) (t : Nat) : FeedItem :=
  { title := "[JA added] " ++ name
  , link := "https://store.steampowered.com/app/" ++ toString appid ++ "/"
  , guid := "ja-" ++ toString appid ++ "-" ++ toString t
  , pubDate := now_rfc2822 t
  , description := "Japanese language appeared in supported_languages."
  , image := some img_url }

/-- The title label of a release transition (src/steam_watch.py:226). -/
def relKind (prevRel nowRel : String) : String :=
  if prevRel = "" ∧ nowRel ≠ "" then "Release date added"
  else "Release date changed"

/-- The feed entry built for a release-marker transition
(src/steam_watch.py:225-234); `now_rel or '(blank)'` renders an empty
marker as `(blank)`. -/
def mkRelItem (appid : Nat) (name img_url prevRel nowRel : String) (t : Nat) :
    FeedItem :=
  { title := "[" ++ relKind prevRel nowRel ++ "] " ++ name ++ " -> " ++
      (if nowRel = "" then "(blank)" else nowRel)
  , link := "https://store.steampowered.com/app/" ++ toString appid ++ "/"
  , guid := "rel-" ++ toString appid ++ "-" ++ toString t
  , pubDate := now_rfc2822 t
  , description := "release_date.date: '" ++ prevRel ++ "' -> '" ++ nowRel ++ "'"
  , image := some img_url }

/-- The item examined at loop iteration `i`:
`idx = (cursor + i) % n; appid = apps[idx]` (src/steam_watch.py:180-181).
`apps[idx]` never raises because `idx < n = len(apps)`; `getD` is only
its total rendering. -/
def loopAppid (apps : List Nat) (n cursor i : Nat) : Nat :=
  apps.getD ((cursor + i) % n) 0

/-- The previously stored facts of an item, defaulting to
`{"has_ja": False, "release": ""}` for a never-seen item
(src/steam_watch.py:207). -/
def prevFacts (st : State) (appid : Nat) : ItemFacts :=
  (dictGet (toString appid) st.known).getD ⟨false, ""⟩

/-- The display name: `data.get("name") or f"App {appid}"`
(src/steam_watch.py:194). -/
def detName (appid : Nat) (data : Details) : String :=
  if data.name = "" then "App " ++ toString appid else data.name

/-- The chosen image URL: first truthy of the three image fields, else
the constructed default (src/steam_watch.py:200-205). -/
def detImg (appid : Nat) (data : Details) : String :=
  if data.capsule_imagev5 ≠ "" then data.capsule_imagev5
  else if data.capsule_image ≠ "" then data.capsule_image
  else if data.header_image ≠ "" then data.header_image
  else defaultImageUrl appid

/-- One iteration of the batch loop body (src/steam_watch.py:180-245),
for iteration index `i` with the loop-invariant locals `apps`, `n`,
`cursor`.  `.error ls` models an unrecoverable abort with the loop state
at that moment; `.ok ls` continues to the next iteration. -/
def iterStep (env : Env) (apps : List Nat) (n cursor i : Nat)
    (ls : LoopState) : Except LoopState LoopState :=
  let appid := loopAppid apps n cursor i
  match env.fetches i with
  | .err => .ok ls
  | .absent => .ok ls
  | .fatal => .error ls
  | .ok data =>
    let name := detName appid data
    let sl := data.supported_languages
    let rd_date := normalize_date data.release_date_date
    let img_url := detImg appid data
    let prev := prevFacts ls.st appid
    let now_has_ja := has_japanese sl
    let now_rel := rd_date
    let t := env.clock i
    let st1 :=
      if !prev.has_ja && now_has_ja then
        { ls.st with rss_lang := mkLangItem appid name img_url t :: ls.st.rss_lang }
      else ls.st
    let fl := if !prev.has_ja && now_has_ja then ls.found_lang + 1 else ls.found_lang
    let st2 :=
      if prev.release ≠ now_rel then
        { st1 with rss_release :=
            mkRelItem appid name img_url prev.release now_rel t :: st1.rss_release }
      else st1
    let fr := if prev.release ≠ now_rel then ls.found_rel + 1 else ls.found_rel
    let st3 := { st2 with
      known := dictInsert (toString appid) ⟨now_has_ja, now_rel⟩ st2.known }
    .ok ⟨st3, ls.checked + 1, fl, fr⟩

/-- The batch loop `for i in range(batch_size)` (src/steam_watch.py:177),
processing `remaining` further iterations starting at index `i`.
Returns the final loop state and whether the loop completed normally
(`false` means an unrecoverable abort).  `if n == 0: break` exits
normally at once on an empty universe. -/
def runBatchAux (env : Env) (apps : List Nat) (n cursor : Nat) :
    Nat → Nat → LoopState → LoopState × Bool
  | _, 0, ls => (ls, true)
  | i, remaining + 1, ls =>
    if n = 0 then (ls, true)
    else
      match iterStep env apps n cursor i ls with
      | .ok ls' => runBatchAux env apps n cursor (i + 1) remaining ls'
      | .error ls' => (ls', false)

/-- The whole batch loop from iteration 0. -/
def runBatch (env : Env) (apps : List Nat) (n cursor batch_size : Nat)
    (ls : LoopState) : LoopState × Bool :=
  runBatchAux env apps n cursor 0 batch_size ls

/-- The observable outcome of one run of `main`: every snapshot passed to
`save_state` in order, the final in-memory state, the two rendered feed
documents when rendering was reached, the counters, and whether the run
completed without an unrecoverable abort. -/
structure RunResult where
  saves : List State
  finalState : State
  rssLangDoc : Option String
  rssRelDoc : Option String
  checked : Nat
  found_lang : Nat
  found_rel : Nat
  completed : Bool
deriving Repr

/-- `main` (src/steam_watch.py:143-272) as a function of its injected
environment: `stateFileExists` is `os.path.isfile(args.state)` at line
164, `now`/`freshList` feed `ensure_applist`, and `s0` is the loaded
state after the three `setdefault` calls.  The `finally` block's save is
the last element of `saves` on both the normal and the aborted path;
the conditional initial save (lines 163-166) precedes the batch. -/
def runMain (env : Env) (batch_size max_rss : Nat) (stateFileExists : Bool)
    (now : Nat) (freshList : List Nat) (s0 : State) : RunResult :=
  let s1 := ensure_applist now freshList 7 s0
  let initSaves := if stateFileExists then [] else [s1]
  let apps := s1.applist.getD []
  let n := apps.length
  let cursor := s1.cursor.getD 0
  let (ls, completed) := runBatch env apps n cursor batch_size ⟨s1, 0, 0, 0⟩
  if completed then
    let s2 := { ls.st with cursor := some ((cursor + ls.checked) % (if n = 0 then 1 else n)) }
    { saves := initSaves ++ [s2]
    , finalState := s2
    , rssLangDoc := some (update_rss s2.rss_lang "Steam: Japanese Language Added"
        "https://example.invalid/rss_lang_ja_added.xml" max_rss env.renderTime)
    , rssRelDoc := some (update_rss s2.rss_release "Steam: Release Date Added/Changed"
        "https://example.invalid/rss_release_changed.xml" max_rss env.renderTime)
    , checked := ls.checked, found_lang := ls.found_lang
    , found_rel := ls.found_rel, completed := true }
  else
    { saves := initSaves ++ [ls.st]
    , finalState := ls.st
    , rssLangDoc := none, rssRelDoc := none
    , checked := ls.checked, found_lang := ls.found_lang
    , found_rel := ls.found_rel, completed := false }
/-- The JSON values `json.dump` / `json.load` exchange with the snapshot
file.  The script only ever stores integral numbers of interest
(appids, the cursor, whole-second timestamps), modelled as `Int`. -/
inductive Json where
  | null
  | bool (b : Bool)
  | num (n : Int)
  | str (s : String)
  | arr (elems : List Json)
  | obj (fields : List (String × Json))

/-- Dict field lookup on a decoded JSON object. -/
def Json.lookupField (k : String) : List (String × Json) → Option Json
  | [] => none
  | (k', v) :: rest => if k' = k then some v else Json.lookupField k rest

/-- Read a JSON value as a string. -/
def Json.asStr : Json → Option String
  | .str s => some s
  | _ => none

/-- Read a JSON value as a boolean. -/
def Json.asBool : Json → Option Bool
  | .bool b => some b
  | _ => none

/-- Read a JSON value as a non-negative integer. -/
def Json.asNat : Json → Option Nat
  | .num n => if n < 0 then none else some n.toNat
  | _ => none

/-- Encode a non-negative integer. -/
def natToJson (n : Nat) : Json := Json.num (Int.ofNat n)

/-- Decode a JSON array of appids. -/
def natsFromJson : List Json → Option (List Nat)
  | [] => some []
  | j :: rest =>
    match j.asNat, natsFromJson rest with
    | some n, some l => some (n :: l)
    | _, _ => none

/-- Serialize one feed-entry dict; the `image` key is present exactly
when the entry carries an image. -/
def itemToJson (it : FeedItem) : Json :=
  .obj ([("title", .str it.title), ("link", .str it.link),
         ("guid", .str it.guid), ("pubDate", .str it.pubDate),
         ("description", .str it.description)] ++
    (match it.image with
     | some i => [("image", Json.str i)]
     | none => []))

/-- Decode one feed-entry dict the way `update_rss` reads it:
`it["title"]`, `it["link"]`, `it["guid"]`, `it["pubDate"]` are required,
`it.get("description","")` defaults, `it.get("image")` is optional. -/
def itemFromJson : Json → Option FeedItem
  | .obj fs =>
    match (Json.lookupField "title" fs).bind Json.asStr,
          (Json.lookupField "link" fs).bind Json.asStr,
          (Json.lookupField "guid" fs).bind Json.asStr,
          (Json.lookupField "pubDate" fs).bind Json.asStr with
    | some t, some l, some g, some p =>
      some { title := t, link := l, guid := g, pubDate := p
           , description :=
               ((Json.lookupField "description" fs).bind Json.asStr).getD ""
           , image := (Json.lookupField "image" fs).bind Json.asStr }
    | _, _, _, _ => none
  | _ => none

/-- Decode a feed-entry list. -/
def itemsFromJson : List Json → Option (List FeedItem)
  | [] => some []
  | j :: rest =>
    match itemFromJson j, itemsFromJson rest with
    | some it, some l => some (it :: l)
    | _, _ => none

/-- Serialize one `known` facts value. -/
def factsToJson (f : ItemFacts) : Json :=
  .obj [("has_ja", .bool f.has_ja), ("release", .str f.release)]

/-- Decode one `known` facts value the way `main` reads it:
`prev.get("has_ja")` is falsy when absent, `prev.get("release","")`
defaults to the empty marker. -/
def factsFromJson : Json → Option ItemFacts
  | .obj fs =>
    some { has_ja := ((Json.lookupField "has_ja" fs).bind Json.asBool).getD false
         , release := ((Json.lookupField "release" fs).bind Json.asStr).getD "" }
  | _ => none

/-- Decode the `known` map. -/
def knownFromJson : List (String × Json) → Option (List (String × ItemFacts))
  | [] => some []
  | (k, j) :: rest =>
    match factsFromJson j, knownFromJson rest with
    | some f, some l => some ((k, f) :: l)
    | _, _ => none

/-- The JSON layout of the persisted state dict, as `save_state`
serializes it: the three scalar keys are present exactly when set, the
three containers always (after `main`'s `setdefault` calls). -/
def stateToJson (s : State) : Json :=
  .obj ((match s.applist with
         | some l => [("applist", Json.arr (l.map natToJson))]
         | none => []) ++
        (match s.applist_ts with
         | some t => [("applist_ts", natToJson t)]
         | none => []) ++
        (match s.cursor with
         | some c => [("cursor", natToJson c)]
         | none => []) ++
        [("rss_lang", .arr (s.rss_lang.map itemToJson)),
         ("rss_release", .arr (s.rss_release.map itemToJson)),
         ("known", .obj (s.known.map fun kv => (kv.1, factsToJson kv.2)))])

/-- Decode a persisted state dict into the `State` the next run observes:
absent scalar keys decode to `none` (they are re-created by
`ensure_applist`), absent containers to the `setdefault` defaults. -/
def stateFromJson : Json → Option State
  | .obj fs => do
    let applist ←
      match Json.lookupField "applist" fs with
      | none => some none
      | some (.arr es) => (natsFromJson es).map some
      | some _ => none
    let applist_ts ←
      match Json.lookupField "applist_ts" fs with
      | none => some none
      | some j => (j.asNat).map some
    let cursor ←
      match Json.lookupField "cursor" fs with
      | none => some none
      | some j => (j.asNat).map some
    let rss_lang ←
      match Json.lookupField "rss_lang" fs with
      | none => some []
      | some (.arr es) => itemsFromJson es
      | some _ => none
    let rss_release ←
      match Json.lookupField "rss_release" fs with
      | none => some []
      | some (.arr es) => itemsFromJson es
      | some _ => none
    let known ←
      match Json.lookupField "known" fs with
      | none => some []
      | some (.obj kfs) => knownFromJson kfs
      | some _ => none
    some { applist := applist, applist_ts := applist_ts, cursor := cursor,
           rss_lang := rss_lang, rss_release := rss_release, known := known }
  | _ => none
/-! ## Helper lemmas -/

lemma self_ne_append_tmp (p : String) : p ≠ p ++ ".tmp" := by
  intro h
  have hl := congrArg (fun s => s.data.length) h
  simp only [String.data_append, List.length_append] at hl
  simp at hl

lemma lookup_erase_ne (fs : FileSys) (k p : String) (h : k ≠ p) :
    (fs.erase p).lookup k = fs.lookup k := by
  induction fs with
  | nil => rfl
  | cons kv rest ih =>
    rcases kv with ⟨a, b⟩
    by_cases ha : a = p
    · subst ha
      simp only [FileSys.erase, if_pos rfl, FileSys.lookup]
      rw [if_neg (fun hh : a = k => h hh.symm)]
      exact ih
    · simp only [FileSys.erase, if_neg ha, FileSys.lookup]
      by_cases hak : a = k
      · rw [if_pos hak, if_pos hak]
      · rw [if_neg hak, if_neg hak]
        exact ih

/-- C2: `save_state` is atomic.  First conjunct: a crash after the
temp-write but before the rename leaves the content at the final path
exactly as before, so the previous valid snapshot remains loadable and
no run observes a half-written file there.  Second conjunct: the
completed save installs exactly the serialized snapshot at the final
path (`os.replace` replaces the target atomically). -/
theorem save_state_atomic (path : String) (s : State) (fs : FileSys) :
    (save_state_tmpWrite path s fs).lookup path = fs.lookup path ∧
    (save_state path s fs).lookup path = some s := by
  have hne : path ≠ path ++ ".tmp" := self_ne_append_tmp path
  constructor
  · show FileSys.lookup ((path ++ ".tmp", s) :: fs.erase (path ++ ".tmp")) path = _
    rw [FileSys.lookup, if_neg (fun hh => hne hh.symm)]
    exact lookup_erase_ne fs path (path ++ ".tmp") hne
  · show (save_state_rename path (save_state_tmpWrite path s fs)).lookup path = some s
    have h1 : (save_state_tmpWrite path s fs).lookup (path ++ ".tmp") = some s := by
      show FileSys.lookup ((path ++ ".tmp", s) :: _) (path ++ ".tmp") = some s
      rw [FileSys.lookup, if_pos rfl]
    unfold save_state_rename
    rw [h1]
    show FileSys.lookup ((path, s) :: _) path = some s
    rw [FileSys.lookup, if_pos rfl]
/-- The loop state after one iteration, whether it continued or aborted. -/
def stepOut : Except LoopState LoopState → LoopState
  | .ok ls => ls
  | .error ls => ls

lemma list_ne_cons_self {α : Type} (l : List α) (e : α) : l ≠ e :: l := by
  intro h
  have := congrArg List.length h
  simp at this

lemma iterStep_rss_lang_eq (env : Env) (apps : List Nat) (n cursor i : Nat)
    (ls : LoopState) (d : Details) (hf : env.fetches i = .ok d) :
    (stepOut (iterStep env apps n cursor i ls)).st.rss_lang =
      (if (prevFacts ls.st (loopAppid apps n cursor i)).has_ja = false ∧
          has_japanese d.supported_languages = true then
        [mkLangItem (loopAppid apps n cursor i)
          (detName (loopAppid apps n cursor i) d)
          (detImg (loopAppid apps n cursor i) d) (env.clock i)]
      else []) ++ ls.st.rss_lang := by
  have hcond : ∀ b c : Bool, ((!b && c) = true ↔ (b = false ∧ c = true)) := by
    decide
  cases hja : (!(prevFacts ls.st (loopAppid apps n cursor i)).has_ja &&
      has_japanese d.supported_languages) with
  | true =>
    rw [if_pos ((hcond _ _).mp hja)]
    simp only [iterStep, hf, stepOut, hja]
    split <;> rfl
  | false =>
    rw [if_neg (fun hp => by rw [(hcond _ _).mpr hp] at hja; cases hja)]
    simp only [iterStep, hf, stepOut, hja, List.nil_append]
    simp only [show ((false = true) = False) by simp, if_false]
    split <;> rfl

lemma iterStep_rss_release_eq (env : Env) (apps : List Nat) (n cursor i : Nat)
    (ls : LoopState) (d : Details) (hf : env.fetches i = .ok d) :
    (stepOut (iterStep env apps n cursor i ls)).st.rss_release =
      (if (prevFacts ls.st (loopAppid apps n cursor i)).release ≠
          normalize_date d.release_date_date then
        [mkRelItem (loopAppid apps n cursor i)
          (detName (loopAppid apps n cursor i) d)
          (detImg (loopAppid apps n cursor i) d)
          (prevFacts ls.st (loopAppid apps n cursor i)).release
          (normalize_date d.release_date_date) (env.clock i)]
      else []) ++ ls.st.rss_release := by
  by_cases hrel : (prevFacts ls.st (loopAppid apps n cursor i)).release ≠
      normalize_date d.release_date_date
  · rw [if_pos hrel]
    simp only [iterStep, hf, stepOut]
    rw [if_pos hrel]
    split <;> rfl
  · rw [if_neg hrel]
    simp only [iterStep, hf, stepOut]
    rw [if_neg hrel]
    split <;> rfl

lemma iterStep_known_eq (env : Env) (apps : List Nat) (n cursor i : Nat)
    (ls : LoopState) (d : Details) (hf : env.fetches i = .ok d) :
    (stepOut (iterStep env apps n cursor i ls)).st.known =
      dictInsert (toString (loopAppid apps n cursor i))
        ⟨has_japanese d.supported_languages, normalize_date d.release_date_date⟩
        ls.st.known := by
  simp only [iterStep, hf, stepOut]
  split <;> split <;> rfl

/-- C3: on a successful fetch, the language-added transition prepends
exactly one feed entry iff the stored `has_ja` (defaulting to `false`
for a never-seen item, via `prevFacts`) is `false` and the freshly
computed `has_japanese` is `true`; on the transitions true→false,
false→false and true→true the language feed list is unchanged. -/
theorem lang_added_iff (env : Env) (apps : List Nat) (n cursor i : Nat)
    (ls : LoopState) (d : Details) (hf : env.fetches i = .ok d) :
    (stepOut (iterStep env apps n cursor i ls)).st.rss_lang =
      (if (prevFacts ls.st (loopAppid apps n cursor i)).has_ja = false ∧
          has_japanese d.supported_languages = true then
        [mkLangItem (loopAppid apps n cursor i)
          (detName (loopAppid apps n cursor i) d)
          (detImg (loopAppid apps n cursor i) d) (env.clock i)]
      else []) ++ ls.st.rss_lang ∧
    ((∃ e, (stepOut (iterStep env apps n cursor i ls)).st.rss_lang =
        e :: ls.st.rss_lang) ↔
      ((prevFacts ls.st (loopAppid apps n cursor i)).has_ja = false ∧
        has_japanese d.supported_languages = true)) := by
  have hmain := iterStep_rss_lang_eq env apps n cursor i ls d hf
  refine ⟨hmain, ?_, ?_⟩
  · rintro ⟨e, he⟩
    by_contra hno
    rw [hmain, if_neg hno, List.nil_append] at he
    exact list_ne_cons_self ls.st.rss_lang e he
  · intro hyes
    exact ⟨_, by rw [hmain, if_pos hyes]; rfl⟩
/-- A fetch environment whose every fetch yields a details dict listing
Japanese support, for exercising the detector on a concrete input. -/
def envC3 : Env :=
  { fetches := fun _ => .ok { Details.empty with supported_languages := "Japanese" }
  , clock := fun _ => 7, renderTime := 0 }

/-- The details dict served by `envC3`. -/
def dC3 : Details := { Details.empty with supported_languages := "Japanese" }

/-- Witness for `lang_added_iff` at a concrete input: a never-seen item
(`prevFacts` defaults to `has_ja = false`) whose fresh text lists
Japanese. -/
theorem lang_added_iff_witness :
    envC3.fetches 0 = .ok dC3 ∧
    ((stepOut (iterStep envC3 [5] 1 0 0 ⟨State.empty, 0, 0, 0⟩)).st.rss_lang =
      (if (prevFacts State.empty (loopAppid [5] 1 0 0)).has_ja = false ∧
          has_japanese dC3.supported_languages = true then
        [mkLangItem (loopAppid [5] 1 0 0) (detName (loopAppid [5] 1 0 0) dC3)
          (detImg (loopAppid [5] 1 0 0) dC3) (envC3.clock 0)]
      else []) ++ State.empty.rss_lang ∧
     ((∃ e, (stepOut (iterStep envC3 [5] 1 0 0 ⟨State.empty, 0, 0, 0⟩)).st.rss_lang =
        e :: State.empty.rss_lang) ↔
      ((prevFacts State.empty (loopAppid [5] 1 0 0)).has_ja = false ∧
        has_japanese dC3.supported_languages = true))) :=
  ⟨rfl, lang_added_iff envC3 [5] 1 0 0 ⟨State.empty, 0, 0, 0⟩ dC3 rfl⟩

/-- C4: on a successful fetch, the release-marker transition prepends
exactly one feed entry iff the stored marker (defaulting to `""` for a
never-seen item, via `prevFacts`) differs from the freshly normalized
one; the entry's label is `Release date added` exactly when the stored
marker was empty and the fresh one is non-empty, and
`Release date changed` in every other case, including a marker becoming
empty. -/
theorem release_change_iff (env : Env) (apps : List Nat) (n cursor i : Nat)
    (ls : LoopState) (d : Details) (hf : env.fetches i = .ok d) :
    (stepOut (iterStep env apps n cursor i ls)).st.rss_release =
      (if (prevFacts ls.st (loopAppid apps n cursor i)).release ≠
          normalize_date d.release_date_date then
        [mkRelItem (loopAppid apps n cursor i)
          (detName (loopAppid apps n cursor i) d)
          (detImg (loopAppid apps n cursor i) d)
          (prevFacts ls.st (loopAppid apps n cursor i)).release
          (normalize_date d.release_date_date) (env.clock i)]
      else []) ++ ls.st.rss_release ∧
    ((∃ e, (stepOut (iterStep env apps n cursor i ls)).st.rss_release =
        e :: ls.st.rss_release) ↔
      (prevFacts ls.st (loopAppid apps n cursor i)).release ≠
        normalize_date d.release_date_date) ∧
    (∀ pr nr : String,
      (relKind pr nr = "Release date added" ↔ (pr = "" ∧ nr ≠ "")) ∧
      (¬(pr = "" ∧ nr ≠ "") → relKind pr nr = "Release date changed")) := by
  have hmain := iterStep_rss_release_eq env apps n cursor i ls d hf
  refine ⟨hmain, ⟨?_, ?_⟩, ?_⟩
  · rintro ⟨e, he⟩
    by_contra hno
    rw [hmain, if_neg (fun hk => hk hno), List.nil_append] at he
    exact list_ne_cons_self ls.st.rss_release e he
  · intro hyes
    exact ⟨_, by rw [hmain, if_pos hyes]; rfl⟩
  · intro pr nr
    constructor
    · constructor
      · intro hlab
        by_contra hno
        rw [relKind, if_neg hno] at hlab
        exact absurd hlab (by decide)
      · intro hp
        rw [relKind, if_pos hp]
    · intro hno
      rw [relKind, if_neg hno]

/-- A fetch environment whose every fetch carries the release date
`"May 1"`, for exercising the detector on a concrete input. -/
def envC4 : Env :=
  { fetches := fun _ => .ok { Details.empty with release_date_date := "May 1" }
  , clock := fun _ => 9, renderTime := 0 }

/-- The details dict served by `envC4`. -/
def dC4 : Details := { Details.empty with release_date_date := "May 1" }

/-- Witness for `release_change_iff` at a concrete input: a never-seen
item (`prevFacts` defaults to the empty marker) acquiring the release
date `"May 1"`. -/
theorem release_change_iff_witness :
    envC4.fetches 0 = .ok dC4 ∧
    ((stepOut (iterStep envC4 [5] 1 0 0 ⟨State.empty, 0, 0, 0⟩)).st.rss_release =
      (if (prevFacts State.empty (loopAppid [5] 1 0 0)).release ≠
          normalize_date dC4.release_date_date then
        [mkRelItem (loopAppid [5] 1 0 0) (detName (loopAppid [5] 1 0 0) dC4)
          (detImg (loopAppid [5] 1 0 0) dC4)
          (prevFacts State.empty (loopAppid [5] 1 0 0)).release
          (normalize_date dC4.release_date_date) (envC4.clock 0)]
      else []) ++ State.empty.rss_release ∧
     ((∃ e, (stepOut (iterStep envC4 [5] 1 0 0 ⟨State.empty, 0, 0, 0⟩)).st.rss_release =
        e :: State.empty.rss_release) ↔
      (prevFacts State.empty (loopAppid [5] 1 0 0)).release ≠
        normalize_date dC4.release_date_date) ∧
     (∀ pr nr : String,
      (relKind pr nr = "Release date added" ↔ (pr = "" ∧ nr ≠ "")) ∧
      (¬(pr = "" ∧ nr ≠ "") → relKind pr nr = "Release date changed"))) :=
  ⟨rfl, release_change_iff envC4 [5] 1 0 0 ⟨State.empty, 0, 0, 0⟩ dC4 rfl⟩
/-- C9 (amended): `ensure_applist` re-fetches the universe exactly when
it is absent or its timestamp is falsy or older than the staleness
threshold, and initializes the cursor to 0 exactly when no cursor is
stored in the state; an existing stored cursor is never touched — in
particular a staleness-triggered re-fetch of an existing universe
leaves a stored cursor unchanged. -/
theorem ensure_applist_spec (now : Nat) (freshList : List Nat) (mad : Nat)
    (s : State) :
    ((s.applist = none ∨ s.applist_ts.getD 0 = 0 ∨
        mad * 86400 < now - s.applist_ts.getD 0) →
      (ensure_applist now freshList mad s).applist = some freshList ∧
      (ensure_applist now freshList mad s).applist_ts = some now) ∧
    (s.applist ≠ none → s.applist_ts.getD 0 ≠ 0 →
      now - s.applist_ts.getD 0 ≤ mad * 86400 →
      (ensure_applist now freshList mad s).applist = s.applist ∧
      (ensure_applist now freshList mad s).applist_ts = s.applist_ts) ∧
    (s.cursor = none → (ensure_applist now freshList mad s).cursor = some 0) ∧
    (s.cursor ≠ none → (ensure_applist now freshList mad s).cursor = s.cursor) := by
  by_cases hstale : (s.applist.isNone ||
      (if s.applist_ts.getD 0 = 0 then true
       else decide (now - s.applist_ts.getD 0 > mad * 86400))) = true
  · refine ⟨?_, ?_, ?_, ?_⟩
    · intro _
      simp only [ensure_applist, hstale, if_true]
      split <;> simp
    · intro h1 h2 h3
      exfalso
      rw [Bool.or_eq_true] at hstale
      rcases hstale with hs | hs
      · exact h1 (Option.isNone_iff_eq_none.mp hs)
      · rw [if_neg h2] at hs
        rw [decide_eq_true_eq] at hs
        omega
    · intro hc
      simp only [ensure_applist, hstale, if_true]
      split
      · simp
      · next hne =>
        exfalso
        apply hne
        simp [hc]
    · intro hc
      simp only [ensure_applist, hstale, if_true]
      rw [if_neg (by simpa using hc)]
  · have hsf : (s.applist.isNone ||
        (if s.applist_ts.getD 0 = 0 then true
         else decide (now - s.applist_ts.getD 0 > mad * 86400))) = false :=
      Bool.eq_false_iff.mpr hstale
    refine ⟨?_, ?_, ?_, ?_⟩
    · intro h
      exfalso
      apply hstale
      rcases h with h | h | h
      · simp [h]
      · simp [h]
      · by_cases hz : s.applist_ts.getD 0 = 0
        · simp [hz]
        · simp [hz]
          omega
    · intro _ _ _
      simp only [ensure_applist, hsf, Bool.false_eq_true, if_false]
      split <;> simp
    · intro hc
      simp only [ensure_applist, hsf, Bool.false_eq_true, if_false]
      rw [if_pos (by simp [hc])]
    · intro hc
      simp only [ensure_applist, hsf, Bool.false_eq_true, if_false]
      rw [if_neg (by simpa using hc)]

/-- A state with an existing (fresh) universe but no stored cursor. -/
def s9 : State :=
  { State.empty with applist := some [1, 2], applist_ts := some 100 }

/-- Counterexample to C9 as stated: the claim says the cursor is
reset/initialized to 0 *only when the universe did not previously
exist*, but `ensure_applist` keys the initialization on the absence of
the `cursor` entry alone.  On a state holding a fresh, existing
universe and no cursor, no re-fetch happens, the universe is present,
and the cursor is nevertheless initialized to 0. -/
theorem ensure_applist_cursor_counterexample :
    s9.applist = some [1, 2] ∧ s9.applist ≠ none ∧
    (ensure_applist 100 [9] 7 s9).applist = some [1, 2] ∧
    (ensure_applist 100 [9] 7 s9).cursor = some 0 := by
  refine ⟨rfl, by decide, rfl, rfl⟩
lemma asNat_natToJson (n : Nat) : (natToJson n).asNat = some n := by
  simp [natToJson, Json.asNat]

lemma natsFromJson_roundtrip (l : List Nat) :
    natsFromJson (l.map natToJson) = some l := by
  induction l with
  | nil => rfl
  | cons n rest ih =>
    simp only [List.map_cons, natsFromJson, asNat_natToJson, ih]

lemma itemFromJson_roundtrip (it : FeedItem) :
    itemFromJson (itemToJson it) = some it := by
  rcases it with ⟨t, l, g, p, dsc, img⟩
  cases img <;>
    simp [itemToJson, itemFromJson, Json.lookupField, Json.asStr]

lemma itemsFromJson_roundtrip (l : List FeedItem) :
    itemsFromJson (l.map itemToJson) = some l := by
  induction l with
  | nil => rfl
  | cons it rest ih => simp [itemsFromJson, itemFromJson_roundtrip, ih]

lemma factsFromJson_roundtrip (f : ItemFacts) :
    factsFromJson (factsToJson f) = some f := by
  rcases f with ⟨b, r⟩
  simp [factsToJson, factsFromJson, Json.lookupField, Json.asBool, Json.asStr]

lemma knownFromJson_roundtrip (m : List (String × ItemFacts)) :
    knownFromJson (m.map fun kv => (kv.1, factsToJson kv.2)) = some m := by
  induction m with
  | nil => rfl
  | cons kv rest ih => simp [knownFromJson, factsFromJson_roundtrip, ih]

/-- C7: serializing a state and decoding it back recovers the state
exactly — same universe, same timestamp, same cursor, same per-item
facts map, same two feed-entry lists.  Hence re-saving the loaded state
without modification serializes the identical JSON document, and the
reloaded run observes a state observationally identical to the one that
was saved.  (The gzip text transport between `json.dump` and
`json.load` is a faithful byte-level inverse pair and is abstracted
away; the dict-level layout is what the script itself reads back.) -/
theorem state_save_load_roundtrip (s : State) :
    stateFromJson (stateToJson s) = some s ∧
    (stateFromJson (stateToJson s)).map stateToJson = some (stateToJson s) := by
  have h : stateFromJson (stateToJson s) = some s := by
    rcases s with ⟨al, ats, cur, rl, rr, kn⟩
    cases al <;> cases ats <;> cases cur <;>
      simp [stateToJson, stateFromJson, Json.lookupField, asNat_natToJson,
        natsFromJson_roundtrip, itemsFromJson_roundtrip, knownFromJson_roundtrip]
  exact ⟨h, by rw [h]; rfl⟩
/-- C1 (amended): on every run — batch completed or aborted partway by
an unrecoverable error — the `finally` block performs the last save,
and what it saves is exactly the run's final in-memory state, so all
partial progress (facts committed and feed entries accumulated before
an abort) is durably persisted.  The save count, however, is not
"exactly once": it is once when the state file already existed, and
twice when it did not, because lines 163-166 perform an extra initial
save before the crawl batch to create the file. -/
theorem save_always_after_batch (env : Env) (bs mr : Nat) (fe : Bool)
    (now : Nat) (fl : List Nat) (s0 : State) :
    (runMain env bs mr fe now fl s0).saves.getLast? =
      some (runMain env bs mr fe now fl s0).finalState ∧
    (runMain env bs mr fe now fl s0).saves.length = if fe then 1 else 2 := by
  rcases hrb : runBatch env ((ensure_applist now fl 7 s0).applist.getD [])
      ((ensure_applist now fl 7 s0).applist.getD []).length
      ((ensure_applist now fl 7 s0).cursor.getD 0) bs
      ⟨ensure_applist now fl 7 s0, 0, 0, 0⟩ with ⟨ls, completed⟩
  cases completed <;> cases fe <;>
    simp [runMain, hrb, List.getLast?_concat]

/-- A concrete first run (no pre-existing state file): `save_state` is
invoked twice, and the first save happens before the crawl batch — its
snapshot is missing the release feed entry that the batch then
detects.  This refutes C1's "invoked exactly once, after the crawl
batch". -/
theorem save_twice_on_first_run_counterexample :
    (runMain envC4 2 200 false 0 [7] State.empty).saves.length = 2 ∧
    ((runMain envC4 2 200 false 0 [7] State.empty).saves.map
      fun st => st.rss_release.length) = [0, 1] := by
  constructor <;> rfl
/-- Whether a fetch outcome leads to the item being counted as examined
(`checked += 1` runs only on a truthy data dict). -/
def isExamined : FetchOutcome → Bool
  | .ok _ => true
  | _ => false

/-- The number of examined items among iterations `i, i+1, ..., i+k-1`. -/
def countExamined (env : Env) : Nat → Nat → Nat
  | _, 0 => 0
  | i, k + 1 =>
      (if isExamined (env.fetches i) then 1 else 0) + countExamined env (i + 1) k

lemma runBatchAux_empty_universe (env : Env) (apps : List Nat) (cursor : Nat)
    (k i : Nat) (ls : LoopState) :
    runBatchAux env apps 0 cursor i k ls = (ls, true) := by
  cases k <;> simp [runBatchAux]

lemma iterStep_ok_checked (env : Env) (apps : List Nat) (n cursor i : Nat)
    (ls : LoopState) (d : Details) (hf : env.fetches i = .ok d) :
    iterStep env apps n cursor i ls = .ok (stepOut (iterStep env apps n cursor i ls)) ∧
    (stepOut (iterStep env apps n cursor i ls)).checked = ls.checked + 1 := by
  simp only [iterStep, hf, stepOut]
  exact ⟨trivial, trivial⟩

lemma runBatchAux_no_fatal (env : Env) (apps : List Nat) (n : Nat)
    (hn : n ≠ 0) (cursor : Nat) :
    ∀ (k i : Nat) (ls : LoopState),
      (∀ j, j < k → env.fetches (i + j) ≠ .fatal) →
      (runBatchAux env apps n cursor i k ls).2 = true ∧
      (runBatchAux env apps n cursor i k ls).1.checked =
        ls.checked + countExamined env i k := by
  intro k
  induction k with
  | zero => intro i ls _; simp [runBatchAux, countExamined]
  | succ k ih =>
    intro i ls h
    have hshift : ∀ j, j < k → env.fetches (i + 1 + j) ≠ .fatal := by
      intro j hj
      have := h (j + 1) (Nat.succ_lt_succ hj)
      rwa [show i + (j + 1) = i + 1 + j by omega] at this
    simp only [runBatchAux, if_neg hn]
    cases hfo : env.fetches i with
    | fatal =>
      exfalso
      exact h 0 (Nat.succ_pos k) (by rwa [Nat.add_zero])
    | err =>
      have hstep : iterStep env apps n cursor i ls = .ok ls := by
        simp only [iterStep, hfo]
      rw [hstep]
      have hrec := ih (i + 1) ls hshift
      refine ⟨hrec.1, ?_⟩
      rw [hrec.2, countExamined, hfo]
      simp [isExamined]
    | absent =>
      have hstep : iterStep env apps n cursor i ls = .ok ls := by
        simp only [iterStep, hfo]
      rw [hstep]
      have hrec := ih (i + 1) ls hshift
      refine ⟨hrec.1, ?_⟩
      rw [hrec.2, countExamined, hfo]
      simp [isExamined]
    | ok d =>
      obtain ⟨hstep, hch⟩ := iterStep_ok_checked env apps n cursor i ls d hfo
      rw [hstep]
      have hrec := ih (i + 1) (stepOut (iterStep env apps n cursor i ls)) hshift
      refine ⟨hrec.1, ?_⟩
      rw [hrec.2, hch, countExamined, hfo]
      simp [isExamined]
      omega
lemma countExamined_all_skip (env : Env) :
    ∀ (k i : Nat), (∀ j, j < k → env.fetches (i + j) = .err ∨
      env.fetches (i + j) = .absent) → countExamined env i k = 0 := by
  intro k
  induction k with
  | zero => intro i _; rfl
  | succ k ih =>
    intro i h
    rw [countExamined]
    have h0 := h 0 (Nat.succ_pos k)
    rw [Nat.add_zero] at h0
    have hif : isExamined (env.fetches i) = false := by
      rcases h0 with h0 | h0 <;> rw [h0] <;> rfl
    rw [hif, if_neg (by simp)]
    rw [ih (i + 1) (fun j hj => by
      have := h (j + 1) (Nat.succ_lt_succ hj)
      rwa [show i + (j + 1) = i + 1 + j by omega] at this)]

/-- C5: for a run whose batch loop is not aborted, the run completes,
the number of examined items is exactly the number of iterations whose
fetch produced a truthy data dict (transient errors and absent results
do not count), and the stored cursor becomes `(C + K) mod N` for
universe length `N` and starting cursor `C` — in particular `0` when
the universe is empty, and advanced by `0` when every fetch fails
transiently. -/
theorem cursor_advances_by_examined (env : Env) (bs mr : Nat) (fe : Bool)
    (now : Nat) (fl : List Nat) (s0 : State)
    (hnf : ∀ i, i < bs → env.fetches i ≠ .fatal) :
    (runMain env bs mr fe now fl s0).completed = true ∧
    (runMain env bs mr fe now fl s0).checked =
      (if ((ensure_applist now fl 7 s0).applist.getD []).length = 0 then 0
       else countExamined env 0 bs) ∧
    (runMain env bs mr fe now fl s0).finalState.cursor =
      some (((ensure_applist now fl 7 s0).cursor.getD 0 +
          (runMain env bs mr fe now fl s0).checked) %
        (if ((ensure_applist now fl 7 s0).applist.getD []).length = 0 then 1
         else ((ensure_applist now fl 7 s0).applist.getD []).length)) ∧
    (((ensure_applist now fl 7 s0).applist.getD []).length = 0 →
      (runMain env bs mr fe now fl s0).finalState.cursor = some 0) ∧
    ((∀ i, i < bs → env.fetches i = .err ∨ env.fetches i = .absent) →
      (runMain env bs mr fe now fl s0).checked = 0) := by
  by_cases hn : ((ensure_applist now fl 7 s0).applist.getD []).length = 0
  · have hrb : runBatch env ((ensure_applist now fl 7 s0).applist.getD []) 0
        ((ensure_applist now fl 7 s0).cursor.getD 0) bs
        ⟨ensure_applist now fl 7 s0, 0, 0, 0⟩ =
        (⟨ensure_applist now fl 7 s0, 0, 0, 0⟩, true) := by
      rw [runBatch]
      exact runBatchAux_empty_universe env _ _ bs 0 _
    refine ⟨?_, ?_, ?_, ?_, ?_⟩ <;>
      simp [runMain, hn, hrb, Nat.mod_one]
  · rcases hrb : runBatch env ((ensure_applist now fl 7 s0).applist.getD [])
        ((ensure_applist now fl 7 s0).applist.getD []).length
        ((ensure_applist now fl 7 s0).cursor.getD 0) bs
        ⟨ensure_applist now fl 7 s0, 0, 0, 0⟩ with ⟨ls, completed⟩
    have hno : (runBatch env ((ensure_applist now fl 7 s0).applist.getD [])
          ((ensure_applist now fl 7 s0).applist.getD []).length
          ((ensure_applist now fl 7 s0).cursor.getD 0) bs
          ⟨ensure_applist now fl 7 s0, 0, 0, 0⟩).2 = true ∧
        (runBatch env ((ensure_applist now fl 7 s0).applist.getD [])
          ((ensure_applist now fl 7 s0).applist.getD []).length
          ((ensure_applist now fl 7 s0).cursor.getD 0) bs
          ⟨ensure_applist now fl 7 s0, 0, 0, 0⟩).1.checked =
          (⟨ensure_applist now fl 7 s0, 0, 0, 0⟩ : LoopState).checked +
            countExamined env 0 bs :=
      runBatchAux_no_fatal env _ _ hn _ bs 0 _
        (fun j hj => by rw [Nat.zero_add]; exact hnf j hj)
    rw [hrb] at hno
    have hc : completed = true := hno.1
    have hch : ls.checked = 0 + countExamined env 0 bs := hno.2
    subst hc
    refine ⟨?_, ?_, ?_, ?_, ?_⟩
    · simp [runMain, hrb]
    · simp [runMain, hrb, hn, hch]
    · simp [runMain, hrb, hn]
    · intro h0; exact absurd h0 hn
    · intro hskip
      have hz : countExamined env 0 bs = 0 :=
        countExamined_all_skip env bs 0
          (fun j hj => by rw [Nat.zero_add]; exact hskip j hj)
      simp [runMain, hrb, hch, hz]
/-- Witness for `cursor_advances_by_examined`: a concrete 2-iteration
run over the one-item universe `[7]` with every fetch succeeding. -/
theorem cursor_advances_by_examined_witness :
    (∀ i, i < 2 → envC4.fetches i ≠ .fatal) ∧
    ((runMain envC4 2 200 true 0 [7] State.empty).completed = true ∧
     (runMain envC4 2 200 true 0 [7] State.empty).checked =
       (if ((ensure_applist 0 [7] 7 State.empty).applist.getD []).length = 0 then 0
        else countExamined envC4 0 2) ∧
     (runMain envC4 2 200 true 0 [7] State.empty).finalState.cursor =
       some (((ensure_applist 0 [7] 7 State.empty).cursor.getD 0 +
           (runMain envC4 2 200 true 0 [7] State.empty).checked) %
         (if ((ensure_applist 0 [7] 7 State.empty).applist.getD []).length = 0 then 1
          else ((ensure_applist 0 [7] 7 State.empty).applist.getD []).length)) ∧
     (((ensure_applist 0 [7] 7 State.empty).applist.getD []).length = 0 →
       (runMain envC4 2 200 true 0 [7] State.empty).finalState.cursor = some 0) ∧
     ((∀ i, i < 2 → envC4.fetches i = .err ∨ envC4.fetches i = .absent) →
       (runMain envC4 2 200 true 0 [7] State.empty).checked = 0)) :=
  ⟨fun i _ h => by simp [envC4] at h,
   cursor_advances_by_examined envC4 2 200 true 0 [7] State.empty
     (fun i _ h => by simp [envC4] at h)⟩
/-- A character list is XML-escaped element content: it holds no raw
`<` or `>`, and every `&` starts one of the entities `&amp;`, `&lt;`,
`&gt;` that `escape_xml` emits. -/
def escapedChars : List Char → Bool
  | [] => true
  | c :: rest =>
      if c = '<' then false
      else if c = '>' then false
      else if c = '&' then
        ("amp;".data.isPrefixOf rest || "lt;".data.isPrefixOf rest ||
          "gt;".data.isPrefixOf rest) && escapedChars rest
      else escapedChars rest

lemma escChar_escaped_append (c : Char) (l : List Char) :
    escapedChars (escChar c ++ l) = escapedChars l := by
  by_cases h1 : c = '&'
  · subst h1
    show escapedChars ('&' :: 'a' :: 'm' :: 'p' :: ';' :: l) = escapedChars l
    simp [escapedChars, List.isPrefixOf]
  · by_cases h2 : c = '<'
    · subst h2
      show escapedChars ('&' :: 'l' :: 't' :: ';' :: l) = escapedChars l
      simp [escapedChars, List.isPrefixOf]
    · by_cases h3 : c = '>'
      · subst h3
        show escapedChars ('&' :: 'g' :: 't' :: ';' :: l) = escapedChars l
        simp [escapedChars, List.isPrefixOf]
      · rw [show escChar c = [c] from by simp [escChar, h1, h2, h3]]
        show escapedChars (c :: l) = escapedChars l
        simp [escapedChars, h1, h2, h3]

lemma escape_xml_escaped (s : String) : escapedChars (escape_xml s).data = true := by
  show escapedChars (s.data.foldr (fun c acc => escChar c ++ acc) []) = true
  induction s.data with
  | nil => rfl
  | cons c rest ih => rw [List.foldr_cons, escChar_escaped_append, ih]

/-- C6 (amended): the rendered item list of `update_rss` truncates to
the most recent `max_items` entries, emits them in the input's
newest-first order, and every text field passes through `escape_xml`,
whose output never holds a raw `<` or `>` and whose every `&` starts an
introduced entity — so escaped element content is well-formed.
`escape_xml` does not, however, escape double quotes, so the
attribute-embedded image URL can break well-formedness (see the
counterexample). -/
theorem update_rss_truncation_order_escaping (entries : List FeedItem) (k : Nat) :
    (rssItemsXml entries k).length = min k entries.length ∧
    (∀ i, i < k → (rssItemsXml entries k)[i]? = (entries[i]?).map renderItem) ∧
    (∀ s : String, escapedChars (escape_xml s).data = true) := by
  refine ⟨?_, ?_, escape_xml_escaped⟩
  · simp [rssItemsXml]
  · intro i hi
    simp [rssItemsXml, List.getElem?_take_of_lt hi, List.getElem?_map]

/-- A feed entry whose catalog-derived title carries markup and whose
image URL carries a double quote. -/
def itQuote : FeedItem :=
  { title := "<script>alert(1)</script>", link := "l", guid := "g",
    pubDate := "p", description := "", image := some "x\"y" }

/-- A second feed entry, plain. -/
def itPlain : FeedItem :=
  { title := "B", link := "l2", guid := "g2", pubDate := "p2",
    description := "d2", image := none }

/-- The two-entry demo list, newest first. -/
def entriesC6 : List FeedItem := [itQuote, itPlain]

/-- Witness for `update_rss_truncation_order_escaping` at the concrete
two-entry list truncated to one item, probing index 0 and the
`<script>` title. -/
theorem update_rss_truncation_order_escaping_witness :
    (0 : Nat) < 1 ∧
    (rssItemsXml entriesC6 1).length = min 1 entriesC6.length ∧
    (rssItemsXml entriesC6 1)[0]? = (entriesC6[0]?).map renderItem ∧
    escapedChars (escape_xml "<script>").data = true :=
  ⟨by decide,
   (update_rss_truncation_order_escaping entriesC6 1).1,
   (update_rss_truncation_order_escaping entriesC6 1).2.1 0 (by decide),
   (update_rss_truncation_order_escaping entriesC6 1).2.2 "<script>"⟩

set_option maxRecDepth 40000 in
/-- Counterexample to C6 as stated: `escape_xml` leaves double quotes
untouched, so an image URL containing `"` is embedded verbatim inside
the double-quoted `media:thumbnail url="…"` attribute.  The rendered
item then contains the text `url="x"y"`, whose attribute value ends at
the interior quote and leaves the stray text `y"` inside the tag — not
well-formed XML.  (In well-formed XML a double-quoted attribute value
cannot contain a raw `"`.)  The claim's "well-formed … even when
image URLs embedded in attribute values contain adversarial
characters" is therefore false. -/
theorem update_rss_attribute_quote_counterexample :
    escape_xml "x\"y" = "x\"y" ∧
    (escape_xml "x\"y").data.contains '"' = true ∧
    "url=\"x\"y\"".data <:+: (renderItem itQuote).data := by
  refine ⟨rfl, rfl, ?_⟩
  decide
/-- The fetch environment of the guid-collision run: the one-item
universe is examined twice in one batch (batch size exceeds the
universe), the item's release date flips from `"A"` to `"B"`, and both
iterations fall in the same whole second (`int(time.time()) = 5`). -/
def envC8 : Env :=
  { fetches := fun i =>
      if i = 0 then .ok { Details.empty with release_date_date := "A" }
      else .ok { Details.empty with release_date_date := "B" }
  , clock := fun _ => 5, renderTime := 0 }

/-- Counterexample to C8 as stated: two distinct release feed entries
created for the same item and the same transition kind within the same
second carry the identical guid `rel-7-5`, so guids are not unique
across all entries. -/
theorem guid_collision_counterexample :
    ((runMain envC8 2 200 true 0 [7] State.empty).finalState.rss_release.map
      fun e => e.guid) = ["rel-7-5", "rel-7-5"] ∧
    ¬ ((runMain envC8 2 200 true 0 [7] State.empty).finalState.rss_release.map
      fun e => e.guid).Nodup ∧
    (runMain envC8 2 200 true 0 [7] State.empty).finalState.rss_release[0]? ≠
      (runMain envC8 2 200 true 0 [7] State.empty).finalState.rss_release[1]? := by
  refine ⟨rfl, by decide, by decide⟩

/-- C8 (amended): every feed entry's guid is derived from the item id,
the transition kind and the whole-second creation timestamp
(`ja-{appid}-{t}` / `rel-{appid}-{t}`); guids of entries of different
transition kinds are always distinct, but the derivation cannot
distinguish two entries of the same item and kind created within the
same second, so global uniqueness fails (see the counterexample). -/
theorem guid_derivation_cross_kind_distinct :
    (∀ (a : Nat) (nm im : String) (t : Nat),
      (mkLangItem a nm im t).guid = "ja-" ++ toString a ++ "-" ++ toString t) ∧
    (∀ (a : Nat) (nm im pr nr : String) (t : Nat),
      (mkRelItem a nm im pr nr t).guid = "rel-" ++ toString a ++ "-" ++ toString t) ∧
    (∀ (a : Nat) (nm im : String) (t : Nat) (a' : Nat)
        (nm' im' pr nr : String) (t' : Nat),
      (mkLangItem a nm im t).guid ≠ (mkRelItem a' nm' im' pr nr t').guid) := by
  refine ⟨fun a nm im t => rfl, fun a nm im pr nr t => rfl, ?_⟩
  intro a nm im t a' nm' im' pr nr t' h
  have h2 := congrArg String.data h
  simp only [mkLangItem, mkRelItem, String.data_append] at h2
  simp at h2
lemma iterStep_suffix (env : Env) (apps : List Nat) (n cursor i : Nat)
    (ls : LoopState) :
    ls.st.rss_lang <:+ (stepOut (iterStep env apps n cursor i ls)).st.rss_lang ∧
    ls.st.rss_release <:+ (stepOut (iterStep env apps n cursor i ls)).st.rss_release := by
  cases hfo : env.fetches i with
  | err =>
    simp only [iterStep, hfo, stepOut]
    exact ⟨List.suffix_refl _, List.suffix_refl _⟩
  | absent =>
    simp only [iterStep, hfo, stepOut]
    exact ⟨List.suffix_refl _, List.suffix_refl _⟩
  | fatal =>
    simp only [iterStep, hfo, stepOut]
    exact ⟨List.suffix_refl _, List.suffix_refl _⟩
  | ok d =>
    rw [iterStep_rss_lang_eq env apps n cursor i ls d hfo,
      iterStep_rss_release_eq env apps n cursor i ls d hfo]
    exact ⟨List.suffix_append _ _, List.suffix_append _ _⟩

lemma runBatchAux_suffix (env : Env) (apps : List Nat) (n cursor : Nat) :
    ∀ (k i : Nat) (ls : LoopState),
      ls.st.rss_lang <:+ (runBatchAux env apps n cursor i k ls).1.st.rss_lang ∧
      ls.st.rss_release <:+ (runBatchAux env apps n cursor i k ls).1.st.rss_release := by
  intro k
  induction k with
  | zero => intro i ls; exact ⟨List.suffix_refl _, List.suffix_refl _⟩
  | succ k ih =>
    intro i ls
    by_cases hn : n = 0
    · simp only [runBatchAux, if_pos hn]
      exact ⟨List.suffix_refl _, List.suffix_refl _⟩
    · simp only [runBatchAux, if_neg hn]
      have hsuf := iterStep_suffix env apps n cursor i ls
      cases hstep : iterStep env apps n cursor i ls with
      | ok ls' =>
        rw [hstep] at hsuf
        have hrec := ih (i + 1) ls'
        exact ⟨hsuf.1.trans hrec.1, hsuf.2.trans hrec.2⟩
      | error ls' =>
        rw [hstep] at hsuf
        exact hsuf

lemma ensure_applist_frame (now : Nat) (fl : List Nat) (mad : Nat) (s : State) :
    (ensure_applist now fl mad s).rss_lang = s.rss_lang ∧
    (ensure_applist now fl mad s).rss_release = s.rss_release ∧
    (ensure_applist now fl mad s).known = s.known := by
  refine ⟨?_, ?_, ?_⟩ <;>
    (simp only [ensure_applist]; split <;> split <;> (try split) <;> rfl)
/-- A release marker consisting of `k` letters `x` — markers of distinct
lengths are distinct and contain no whitespace. -/
def xstr (k : Nat) : String := String.mk (List.replicate k 'x')

lemma dropWhile_replicate_x (m : Nat) :
    List.dropWhile Char.isWhitespace (List.replicate (m + 1) 'x') =
      List.replicate (m + 1) 'x' := by
  rw [List.replicate_succ, List.dropWhile_cons, if_neg (by decide)]

lemma pyStrip_xstr (m : Nat) : pyStrip (xstr (m + 1)) = xstr (m + 1) := by
  have hd : (xstr (m + 1)).data = List.replicate (m + 1) 'x' := rfl
  rw [pyStrip, hd, dropWhile_replicate_x, List.reverse_replicate,
    dropWhile_replicate_x, List.reverse_replicate]
  rfl

lemma xstr_ne_empty (m : Nat) : xstr (m + 1) ≠ "" := by
  intro h
  have := congrArg (fun s => s.data.length) h
  simp [xstr] at this

lemma normalize_date_xstr (m : Nat) :
    normalize_date (xstr (m + 1)) = xstr (m + 1) := by
  rw [normalize_date, if_neg (xstr_ne_empty m), pyStrip_xstr]

lemma xstr_data_length (m : Nat) : (xstr m).data.length = m := by
  simp [xstr]

lemma dictGet_dictInsert_self (k : String) (v : ItemFacts)
    (m : List (String × ItemFacts)) : dictGet k (dictInsert k v m) = some v := by
  induction m with
  | nil => simp [dictInsert, dictGet]
  | cons kv rest ih =>
    by_cases hk : kv.1 = k
    · simp [dictInsert, hk, dictGet]
    · simp [dictInsert, hk, dictGet, ih]

lemma loopAppid_singleton (a cursor i : Nat) : loopAppid [a] 1 cursor i = a := by
  simp [loopAppid, Nat.mod_one]

lemma has_japanese_japanese : has_japanese "japanese" = true := by decide

lemma has_japanese_empty : has_japanese "" = false := rfl

/-- The appdetails dict of the unbounded-growth script: a fresh,
strictly length-increasing release marker and a supported-languages
text that lists Japanese exactly when `b` is set. -/
def growthFetch (b : Bool) (c : Nat) : Details :=
  { name := "", supported_languages := if b then "japanese" else ""
  , release_date_date := xstr (c + 1)
  , capsule_imagev5 := "", capsule_image := "", header_image := "" }

lemma has_japanese_growthFetch (b : Bool) (c : Nat) :
    has_japanese (growthFetch b c).supported_languages = b := by
  cases b
  · rfl
  · exact has_japanese_japanese

lemma growth_step (env : Env) (a cursor i : Nat) (ls : LoopState) (b : Bool)
    (c : Nat) (hf : env.fetches i = .ok (growthFetch b c))
    (hlen : (prevFacts ls.st a).release.data.length = c) :
    ∃ ls', iterStep env [a] 1 cursor i ls = .ok ls' ∧
      ls'.st.rss_release.length = ls.st.rss_release.length + 1 ∧
      ls'.st.rss_lang.length = ls.st.rss_lang.length +
        (if (prevFacts ls.st a).has_ja = false ∧ b = true then 1 else 0) ∧
      prevFacts ls'.st a = ⟨b, xstr (c + 1)⟩ := by
  have hnd : normalize_date (growthFetch b c).release_date_date = xstr (c + 1) :=
    normalize_date_xstr c
  have hne : (prevFacts ls.st a).release ≠
      normalize_date (growthFetch b c).release_date_date := by
    rw [hnd]
    intro he
    have := congrArg (fun s => s.data.length) he
    simp only [hlen, xstr_data_length] at this
    omega
  refine ⟨stepOut (iterStep env [a] 1 cursor i ls),
    (iterStep_ok_checked env [a] 1 cursor i ls _ hf).1, ?_, ?_, ?_⟩
  · rw [iterStep_rss_release_eq env [a] 1 cursor i ls _ hf, loopAppid_singleton,
      if_pos hne]
    simp
  · rw [iterStep_rss_lang_eq env [a] 1 cursor i ls _ hf, loopAppid_singleton,
      has_japanese_growthFetch]
    by_cases hc : (prevFacts ls.st a).has_ja = false ∧ b = true
    · rw [if_pos hc, if_pos hc]
      simp
    · rw [if_neg hc, if_neg hc]
      simp
  · rw [prevFacts, iterStep_known_eq env [a] 1 cursor i ls _ hf,
      loopAppid_singleton, dictGet_dictInsert_self]
    simp [Option.getD, has_japanese_growthFetch, hnd]
lemma growth_pairs (env : Env) (a cursor : Nat) :
    ∀ (k i : Nat) (ls : LoopState),
      (prevFacts ls.st a).has_ja = false →
      (∀ j, j < 2 * k → env.fetches (i + j) =
        .ok (growthFetch (decide (j % 2 = 0))
          ((prevFacts ls.st a).release.data.length + j))) →
      (runBatchAux env [a] 1 cursor i (2 * k) ls).1.st.rss_release.length =
        ls.st.rss_release.length + 2 * k ∧
      (runBatchAux env [a] 1 cursor i (2 * k) ls).1.st.rss_lang.length =
        ls.st.rss_lang.length + k := by
  intro k
  induction k with
  | zero =>
    intro i ls _ _
    norm_num [runBatchAux]
  | succ k ih =>
    intro i ls hja h
    have h0 := h 0 (by omega)
    simp only [Nat.add_zero] at h0
    have h0' : env.fetches i = .ok (growthFetch true
        ((prevFacts ls.st a).release.data.length)) := by
      simpa using h0
    obtain ⟨ls1, hstep1, hrel1, hlang1, hfacts1⟩ :=
      growth_step env a cursor i ls true _ h0' rfl
    have h1 := h 1 (by omega)
    have h1' : env.fetches (i + 1) = .ok (growthFetch false
        ((prevFacts ls.st a).release.data.length + 1)) := by
      simpa using h1
    have hlen1 : (prevFacts ls1.st a).release.data.length =
        (prevFacts ls.st a).release.data.length + 1 := by
      rw [hfacts1, xstr_data_length]
    obtain ⟨ls2, hstep2, hrel2, hlang2, hfacts2⟩ :=
      growth_step env a cursor (i + 1) ls1 false _ h1' hlen1
    have hja2 : (prevFacts ls2.st a).has_ja = false := by rw [hfacts2]
    have hlen2 : (prevFacts ls2.st a).release.data.length =
        (prevFacts ls.st a).release.data.length + 2 := by
      rw [hfacts2, xstr_data_length]
    have hscript : ∀ j, j < 2 * k → env.fetches (i + 2 + j) =
        .ok (growthFetch (decide (j % 2 = 0))
          ((prevFacts ls2.st a).release.data.length + j)) := by
      intro j hj
      have hh := h (j + 2) (by omega)
      rw [show i + (j + 2) = i + 2 + j by omega] at hh
      rw [hlen2, show (prevFacts ls.st a).release.data.length + 2 + j =
        (prevFacts ls.st a).release.data.length + (j + 2) by omega]
      rw [show (decide (j % 2 = 0)) = (decide ((j + 2) % 2 = 0)) by
        rw [Nat.add_mod_right]]
      exact hh
    have hrec := ih (i + 2) ls2 hja2 hscript
    have hunf : runBatchAux env [a] 1 cursor i (2 * (k + 1)) ls =
        runBatchAux env [a] 1 cursor (i + 2) (2 * k) ls2 := by
      rw [show 2 * (k + 1) = 2 * k + 1 + 1 by omega]
      simp only [runBatchAux, if_neg one_ne_zero, hstep1, hstep2]
    rw [hunf]
    have hl1 : ls1.st.rss_lang.length = ls.st.rss_lang.length + 1 := by
      rw [hlang1, if_pos ⟨hja, rfl⟩]
    have hl2 : ls2.st.rss_lang.length = ls1.st.rss_lang.length := by
      rw [hlang2, if_neg (by rw [hfacts1]; simp)]
      omega
    constructor
    · rw [hrec.1, hrel2, hrel1]
      omega
    · rw [hrec.2, hl2, hl1]
      omega
lemma ensure_applist_refetch_of_stale (now : Nat) (fl : List Nat) (mad : Nat)
    (s : State) (h : mad * 86400 < now - s.applist_ts.getD 0) :
    (ensure_applist now fl mad s).applist = some fl := by
  have hc : (s.applist.isNone ||
      (if s.applist_ts.getD 0 = 0 then true
       else decide (now - s.applist_ts.getD 0 > mad * 86400))) = true := by
    by_cases hz : s.applist_ts.getD 0 = 0 <;> simp [hz] <;> omega
  simp only [ensure_applist, hc, if_true]
  split <;> rfl

lemma runMain_final_rss (env : Env) (bs mr : Nat) (fe : Bool) (now : Nat)
    (fl : List Nat) (s0 : State) :
    (runMain env bs mr fe now fl s0).finalState.rss_lang =
      (runBatch env ((ensure_applist now fl 7 s0).applist.getD [])
        ((ensure_applist now fl 7 s0).applist.getD []).length
        ((ensure_applist now fl 7 s0).cursor.getD 0) bs
        ⟨ensure_applist now fl 7 s0, 0, 0, 0⟩).1.st.rss_lang ∧
    (runMain env bs mr fe now fl s0).finalState.rss_release =
      (runBatch env ((ensure_applist now fl 7 s0).applist.getD [])
        ((ensure_applist now fl 7 s0).applist.getD []).length
        ((ensure_applist now fl 7 s0).cursor.getD 0) bs
        ⟨ensure_applist now fl 7 s0, 0, 0, 0⟩).1.st.rss_release := by
  rcases hrb : runBatch env ((ensure_applist now fl 7 s0).applist.getD [])
      ((ensure_applist now fl 7 s0).applist.getD []).length
      ((ensure_applist now fl 7 s0).cursor.getD 0) bs
      ⟨ensure_applist now fl 7 s0, 0, 0, 0⟩ with ⟨ls, completed⟩
  cases completed <;> simp [runMain, hrb]

lemma runMain_suffix (env : Env) (bs mr : Nat) (fe : Bool) (now : Nat)
    (fl : List Nat) (s0 : State) :
    (s0.rss_lang <:+ (runMain env bs mr fe now fl s0).finalState.rss_lang ∧
     s0.rss_release <:+ (runMain env bs mr fe now fl s0).finalState.rss_release) ∧
    (∀ st ∈ (runMain env bs mr fe now fl s0).saves,
      s0.rss_lang <:+ st.rss_lang ∧ s0.rss_release <:+ st.rss_release) := by
  obtain ⟨hfl, hfr, _⟩ := ensure_applist_frame now fl 7 s0
  have hsuf := runBatchAux_suffix env ((ensure_applist now fl 7 s0).applist.getD [])
    ((ensure_applist now fl 7 s0).applist.getD []).length
    ((ensure_applist now fl 7 s0).cursor.getD 0) bs 0
    ⟨ensure_applist now fl 7 s0, 0, 0, 0⟩
  rw [hfl, hfr] at hsuf
  rcases hrb : runBatch env ((ensure_applist now fl 7 s0).applist.getD [])
      ((ensure_applist now fl 7 s0).applist.getD []).length
      ((ensure_applist now fl 7 s0).cursor.getD 0) bs
      ⟨ensure_applist now fl 7 s0, 0, 0, 0⟩ with ⟨ls, completed⟩
  rw [runBatch] at hrb
  rw [hrb] at hsuf
  have hls : s0.rss_lang <:+ ls.st.rss_lang ∧
      s0.rss_release <:+ ls.st.rss_release := hsuf
  constructor
  · cases completed <;> (simp [runMain, runBatch, hrb]; exact hls)
  · intro st hmem
    cases completed <;>
      (simp [runMain, runBatch, hrb] at hmem) <;>
      cases fe <;> simp at hmem
    all_goals
      first
      | (rcases hmem with hmem | hmem
         · subst hmem
           exact ⟨hfl ▸ List.suffix_refl _, hfr ▸ List.suffix_refl _⟩
         · subst hmem
           exact hls)
      | (subst hmem; exact hls)
/-- The fetch environment of the unbounded-growth runs: iteration 0
resets the item's stored language flag and installs a fresh marker;
from iteration 1 on, the script alternates a Japanese-listing fetch
with a plain one while the release marker keeps growing. -/
def growthEnv (L0 : Nat) : Env :=
  { fetches := fun j =>
      if j = 0 then .ok (growthFetch false L0)
      else .ok (growthFetch (decide ((j - 1) % 2 = 0)) (L0 + j))
  , clock := fun _ => 0, renderTime := 0 }

lemma growthEnv_fetch_zero (L0 : Nat) :
    (growthEnv L0).fetches 0 = .ok (growthFetch false L0) := rfl

lemma growthEnv_fetch_succ (L0 j : Nat) :
    (growthEnv L0).fetches (j + 1) =
      .ok (growthFetch (decide (j % 2 = 0)) (L0 + (j + 1))) := by
  simp [growthEnv]

lemma runMain_growth (s0 : State) (m : Nat) :
    ∃ (env : Env) (bs now : Nat),
      m ≤ (runMain env bs 0 true now [1] s0).finalState.rss_lang.length ∧
      m ≤ (runMain env bs 0 true now [1] s0).finalState.rss_release.length := by
  set L0 := (prevFacts s0 1).release.data.length with hL0
  set nw := s0.applist_ts.getD 0 + 604801 with hnw
  refine ⟨growthEnv L0, 2 * m + 1, nw, ?_⟩
  have happ : (ensure_applist nw [1] 7 s0).applist = some [1] :=
    ensure_applist_refetch_of_stale nw [1] 7 s0 (by omega)
  obtain ⟨_, _, hkn⟩ := ensure_applist_frame nw [1] 7 s0
  have hprev : prevFacts (ensure_applist nw [1] 7 s0) 1 = prevFacts s0 1 := by
    rw [prevFacts, prevFacts, hkn]
  have hlen0 : (prevFacts (ensure_applist nw [1] 7 s0) 1).release.data.length = L0 := by
    rw [hprev, hL0]
  obtain ⟨ls1, hstep1, hrel1, hlang1, hfacts1⟩ :=
    growth_step (growthEnv L0) 1 ((ensure_applist nw [1] 7 s0).cursor.getD 0) 0
      ⟨ensure_applist nw [1] 7 s0, 0, 0, 0⟩ false L0 (growthEnv_fetch_zero L0) hlen0
  have hja1 : (prevFacts ls1.st 1).has_ja = false := by rw [hfacts1]
  have hlen1 : (prevFacts ls1.st 1).release.data.length = L0 + 1 := by
    rw [hfacts1, xstr_data_length]
  have hscript : ∀ j, j < 2 * m → (growthEnv L0).fetches (1 + j) =
      .ok (growthFetch (decide (j % 2 = 0))
        ((prevFacts ls1.st 1).release.data.length + j)) := by
    intro j _
    rw [show 1 + j = j + 1 by omega, growthEnv_fetch_succ, hlen1]
    rw [show L0 + (j + 1) = L0 + 1 + j by omega]
  have hpairs := growth_pairs (growthEnv L0) 1
    ((ensure_applist nw [1] 7 s0).cursor.getD 0) m 1 ls1 hja1 hscript
  have hunf : runBatchAux (growthEnv L0) [1] 1
      ((ensure_applist nw [1] 7 s0).cursor.getD 0) 0 (2 * m + 1)
      ⟨ensure_applist nw [1] 7 s0, 0, 0, 0⟩ =
      runBatchAux (growthEnv L0) [1] 1
        ((ensure_applist nw [1] 7 s0).cursor.getD 0) 1 (2 * m) ls1 := by
    simp only [runBatchAux, if_neg one_ne_zero, hstep1]
  obtain ⟨hfinl, hfinr⟩ := runMain_final_rss (growthEnv L0) (2 * m + 1) 0 true nw [1] s0
  rw [happ] at hfinl hfinr
  simp only [Option.getD_some, List.length_singleton] at hfinl hfinr
  rw [hfinl, hfinr, runBatch, hunf, hpairs.1, hpairs.2]
  constructor <;> omega
/-- C10: no operation removes or reorders the persisted feed-entry
lists — the loaded lists are a suffix of the lists in the final state
and in every saved snapshot of every run (the crawl loop only prepends,
rendering reads a truncated copy without mutating, and save persists
the full untruncated lists), so each stored list's length is
nondecreasing across runs; and the lists grow without bound: past any
bound `m` there is a run making both stored lists longer than `m`. -/
theorem feed_lists_append_only_and_unbounded :
    (∀ (env : Env) (bs mr : Nat) (fe : Bool) (now : Nat) (fl : List Nat)
        (s0 : State),
      (s0.rss_lang <:+ (runMain env bs mr fe now fl s0).finalState.rss_lang ∧
       s0.rss_release <:+ (runMain env bs mr fe now fl s0).finalState.rss_release) ∧
      (∀ st ∈ (runMain env bs mr fe now fl s0).saves,
        s0.rss_lang <:+ st.rss_lang ∧ s0.rss_release <:+ st.rss_release)) ∧
    (∀ (s0 : State) (m : Nat), ∃ (env : Env) (bs now : Nat),
      m ≤ (runMain env bs 0 true now [1] s0).finalState.rss_lang.length ∧
      m ≤ (runMain env bs 0 true now [1] s0).finalState.rss_release.length) :=
  ⟨fun env bs mr fe now fl s0 => runMain_suffix env bs mr fe now fl s0,
   fun s0 m => runMain_growth s0 m⟩
